import Mathlib

/-!
Shallow embedding of `graphwork.py`, a thin convenience layer around the
graphviz library, together with theorems about its behaviour.

The module builds a graphviz `Graph` object from caller-supplied edge and
vertex descriptors (`graph`), merges per-call graph attributes over a
process-wide default mapping (`mkgraph`), and renders the result to a
fixed-named PNG file (`render`, `G`).

Python values that flow through the descriptor-processing code are modelled
by the inductive type `Val` (strings, attribute dictionaries, tuples, and
`None`).  A graphviz graph handle is modelled as its accumulated body of
node/edge statements plus its graph-attribute mapping.  Python exceptions
(wrong tuple arity, `**`-unpacking a non-mapping, non-string node names,
unpacking a non-iterable) are modelled with `Except Unit`; the bare
`except:` in `graph` catches any error, so the error payload is `Unit`.
-/

namespace Graphwork

/-- A Python value as it appears in vertex/edge descriptors: a string, an
attribute dictionary (string keys and values, as graphviz attributes are),
a tuple, or `None`. -/
inductive Val where
  | str : String → Val
  | attrs : List (String × String) → Val
  | tuple : List Val → Val
  | none : Val

/-- One statement accumulated in a graphviz graph body: a node statement
(name, optional label, attributes) or an edge statement (tail, head,
attributes). -/
inductive Stmt where
  | node : String → Option String → List (String × String) → Stmt
  | edge : String → String → List (String × String) → Stmt
deriving DecidableEq, Repr

/-- The graphviz `Graph` handle: its graph-attribute mapping and the list of
node/edge statements registered so far, in registration order. -/
structure Graph where
  graph_attr : List (String × String)
  body : List Stmt
deriving DecidableEq, Repr

/-- Python `d[k] = v` on an attribute dictionary modelled as an association
list: replace the value at the first occurrence of `k`, else append. -/
def dictInsert : List (String × String) → String → String → List (String × String)
  | [], k, v => [(k, v)]
  | (k', v') :: rest, k, v =>
      if k' = k then (k, v) :: rest else (k', v') :: dictInsert rest k v

/-- Python `d.update(a)`: insert every binding of `a` into `d`, in order. -/
def dictUpdate (d a : List (String × String)) : List (String × String) :=
  a.foldl (fun acc kv => dictInsert acc kv.1 kv.2) d

/-- Python `d.get(k)` / `d[k]`: first binding of `k`, if any. -/
def dictLookup : List (String × String) → String → Option String
  | [], _ => Option.none
  | (k', v') :: rest, k => if k' = k then some v' else dictLookup rest k

/-- The process-wide default graph attributes (`default_graph_attrs` in
`graphwork.py`). -/
def default_graph_attrs : List (String × String) := [("rankdir", "LR")]

/-- Embedding of `mkgraph(attrs)`: copy `default_graph_attrs`, update the
copy with `attrs` when `attrs != None`, and construct a `graphviz.Graph`
with that attribute mapping and an empty body. -/
def mkgraph (attrs : Option (List (String × String))) : Graph :=
  let graph_attrs := default_graph_attrs
  let graph_attrs :=
    match attrs with
    | Option.none => graph_attrs
    | some a => dictUpdate graph_attrs a
  { graph_attr := graph_attrs, body := [] }

/-- Embedding of `graphviz.Graph.node(name, label, **attrs)`: appends one
node statement.  graphviz requires the name and the label (when not `None`)
to be strings, and `**attrs` requires `attrs` to be a mapping; anything else
raises. -/
def Graph.node (g : Graph) (name label attrs : Val) : Except Unit Graph :=
  match name, label, attrs with
  | Val.str n, Val.none, Val.attrs d =>
      Except.ok { g with body := g.body ++ [Stmt.node n Option.none d] }
  | Val.str n, Val.str l, Val.attrs d =>
      Except.ok { g with body := g.body ++ [Stmt.node n (some l) d] }
  | _, _, _ => Except.error ()

/-- Embedding of `graphviz.Graph.edge(tail, head, **attrs)`: appends one
edge statement.  graphviz requires both endpoints to be strings and `**attrs`
requires a mapping; anything else raises. -/
def Graph.edge (g : Graph) (tail head attrs : Val) : Except Unit Graph :=
  match tail, head, attrs with
  | Val.str t, Val.str h, Val.attrs d =>
      Except.ok { g with body := g.body ++ [Stmt.edge t h d] }
  | _, _, _ => Except.error ()

/-- Embedding of `mknode(graph, name, label=None, attrs=None)`: default the
attribute dictionary when it is `None`, then call `graph.node`. -/
def mknode (g : Graph) (name label attrs : Val) : Except Unit Graph :=
  let attrs := match attrs with
    | Val.none => Val.attrs []
    | a => a
  g.node name label attrs

/-- Embedding of `mkedge(graph, tail, head, attrs=None)`: default the
attribute dictionary when it is `None`, then call `graph.edge`. -/
def mkedge (g : Graph) (tail head attrs : Val) : Except Unit Graph :=
  let attrs := match attrs with
    | Val.none => Val.attrs []
    | a => a
  g.edge tail head attrs

/-- A Python positional call of `mknode` with `graph` plus the given
argument list: fills in the defaults `label=None`, `attrs=None`; any other
arity raises `TypeError`. -/
def mknodeCall (g : Graph) (args : List Val) : Except Unit Graph :=
  match args with
  | [n] => mknode g n Val.none Val.none
  | [n, l] => mknode g n l Val.none
  | [n, l, a] => mknode g n l a
  | _ => Except.error ()

/-- A Python positional call of `mkedge` with `graph` plus the given
argument list: fills in the default `attrs=None`; any other arity raises
`TypeError` (in particular a single argument misses the required `head`). -/
def mkedgeCall (g : Graph) (args : List Val) : Except Unit Graph :=
  match args with
  | [t, h] => mkedge g t h Val.none
  | [t, h, a] => mkedge g t h a
  | _ => Except.error ()

/-- Python `*v` argument unpacking: a tuple yields its items, a string
yields its characters as one-character strings, a dictionary yields its
keys, and `None` is not iterable (raises). -/
def unpack : Val → Option (List Val)
  | Val.tuple vs => some vs
  | Val.str s => some (s.data.map (fun c => Val.str (String.singleton c)))
  | Val.attrs d => some (d.map (fun kv => Val.str kv.1))
  | Val.none => Option.none

/-- The vertex loop of `graph`: for each vertex, try `mknodeF(graph, vertex)`
and on any exception fall back to `mknodeF(graph, *vertex)`; an exception
from the fallback (or from unpacking a non-iterable) propagates. -/
def addVertices (mknodeF : Graph → List Val → Except Unit Graph) :
    Graph → List Val → Except Unit Graph
  | g, [] => Except.ok g
  | g, v :: vs =>
      match mknodeF g [v] with
      | Except.ok g' => addVertices mknodeF g' vs
      | Except.error _ =>
          match unpack v with
          | some args =>
              match mknodeF g args with
              | Except.ok g' => addVertices mknodeF g' vs
              | Except.error e => Except.error e
          | Option.none => Except.error ()

/-- The edge loop of `graph`: for each edge, call `mkedgeF(graph, *edge)`;
exceptions propagate. -/
def addEdges (mkedgeF : Graph → List Val → Except Unit Graph) :
    Graph → List Val → Except Unit Graph
  | g, [] => Except.ok g
  | g, e :: es =>
      match unpack e with
      | some args =>
          match mkedgeF g args with
          | Except.ok g' => addEdges mkedgeF g' es
          | Except.error err => Except.error err
      | Option.none => Except.error ()

/-- Embedding of `graph(edges, vertices, attrs, mkgraph, mkedge, mknode)`
with the helper functions passed explicitly: make the graph from `attrs`,
add the given vertices (with the try/except calling-convention fallback),
then add all edges. -/
def graphWith (edges vertices : Option (List Val))
    (attrs : Option (List (String × String)))
    (mkgraphF : Option (List (String × String)) → Graph)
    (mkedgeF mknodeF : Graph → List Val → Except Unit Graph) :
    Except Unit Graph :=
  let g := mkgraphF attrs
  match (match vertices with
         | Option.none => Except.ok g
         | some vs => addVertices mknodeF g vs) with
  | Except.error e => Except.error e
  | Except.ok g =>
      match edges with
      | Option.none => Except.ok g
      | some es => addEdges mkedgeF g es

/-- Embedding of `graph(edges, vertices, attrs)` with the source's default
helper arguments.  The defaults in the source are swapped: the parameter
`mkedge` defaults to the module-level `mknode` function and the parameter
`mknode` defaults to the module-level `mkedge` function, so the edge loop
calls `mknode` and the vertex loop calls `mkedge`. -/
def graph (edges vertices : Option (List Val))
    (attrs : Option (List (String × String))) : Except Unit Graph :=
  graphWith edges vertices attrs mkgraph mknodeCall mkedgeCall

/-- The render call issued by `render(graph, open)`: the graph, the base
filename, the output format, the `view` flag, and the `cleanup` flag passed
to `graphviz.Graph.render`. -/
structure RenderCall where
  graph : Graph
  filename : String
  format : String
  view : Bool
  cleanup : Bool
deriving DecidableEq, Repr

/-- Embedding of `render(graph, open)`:
`graph.render("render", format="png", view=open, cleanup=True)`. -/
def render (g : Graph) (openViewer : Bool) : RenderCall :=
  { graph := g, filename := "render", format := "png",
    view := openViewer, cleanup := true }

/-- Embedding of `G(edges, vertices, attrs, open)`:
`render(graph(edges, vertices, attrs), open=open)`.  If building the graph
raises, `render` is never called and the exception propagates. -/
def G (edges vertices : Option (List Val))
    (attrs : Option (List (String × String))) (openViewer : Bool) :
    Except Unit RenderCall :=
  (graph edges vertices attrs).map (fun g => render g openViewer)

/-- The fixed example edge list `_gw_example_small_fixed_edges`. -/
def gw_example_small_fixed_edges : List (String × Nat) :=
  [("TS", 22), ("TU", 20), ("TV", 23), ("SU", 18), ("UV", 19), ("UW", 17),
   ("UX", 18), ("VW", 16), ("WX", 18), ("WZ", 18), ("XY", 17), ("ZY", 15)]

/-- Embedding of `gw_example_small_fixed()`: expand each `('TS', 22)` into
the tuple `('T', 'S', {"weight": "22"})` by unpacking the two-character
string and stringifying the weight. -/
def gw_example_small_fixed : List Val :=
  gw_example_small_fixed_edges.map (fun e =>
    Val.tuple (e.1.data.map (fun c => Val.str (String.singleton c)) ++
      [Val.attrs [("weight", toString e.2)]]))

/-- The names of the node statements registered in a graph body, in
registration order (duplicates kept). -/
def declaredNodes (g : Graph) : List String :=
  g.body.filterMap (fun s =>
    match s with
    | Stmt.node n _ _ => some n
    | Stmt.edge _ _ _ => Option.none)

/-- The endpoint pairs of the edge statements registered in a graph body,
in registration order. -/
def edgeList (g : Graph) : List (String × String) :=
  g.body.filterMap (fun s =>
    match s with
    | Stmt.node _ _ _ => Option.none
    | Stmt.edge t h _ => some (t, h))

/-- The identifiers that are nodes of the graph in DOT semantics: every
declared node name together with every edge endpoint, without duplicates. -/
def semNodes (g : Graph) : List String :=
  (declaredNodes g ++ (edgeList g).foldr (fun p acc => p.1 :: p.2 :: acc) []).dedup

/-- A store of attribute dictionaries, used to track dictionary identity
(aliasing) through `mkgraph`: addresses are indices into the store. -/
abbrev Store := List (List (String × String))

/-- Store-passing translation of `mkgraph(attrs)` in which dictionaries live
in a store addressed by index and `default_graph_attrs` is the dictionary at
`defaultAddr`.  The line `graph_attrs = dict(default_graph_attrs)` allocates
a fresh dictionary holding a copy of the contents at `defaultAddr`, and
`graph_attrs.update(attrs)` mutates that fresh dictionary in place.  Returns
the final store and the address of the dictionary handed to
`graphviz.Graph`. -/
def mkgraphStore (s : Store) (defaultAddr : Nat)
    (attrs : Option (List (String × String))) : Store × Nat :=
  let copied := s.getD defaultAddr []
  let copyAddr := s.length
  let s := s ++ [copied]
  let s :=
    match attrs with
    | Option.none => s
    | some a => s.set copyAddr (dictUpdate (s.getD copyAddr []) a)
  (s, copyAddr)

/-- Statements appended by one positional helper call, computed by running
the call on an empty graph. -/
def callStmts (call : Graph → List Val → Except Unit Graph)
    (args : List Val) : Except Unit (List Stmt) :=
  (call { graph_attr := [], body := [] } args).map Graph.body

/-- Statements contributed by one vertex descriptor under the default
helper arguments of `graph` (the vertex loop calls `mkedge`): try the
one-argument convention, else unpack and retry. -/
def vertexStmts (v : Val) : Except Unit (List Stmt) :=
  match callStmts mkedgeCall [v] with
  | Except.ok ss => Except.ok ss
  | Except.error _ =>
      match unpack v with
      | some args => callStmts mkedgeCall args
      | Option.none => Except.error ()

/-- Statements contributed by one edge descriptor under the default helper
arguments of `graph` (the edge loop calls `mknode`): unpack and call. -/
def edgeStmts (e : Val) : Except Unit (List Stmt) :=
  match unpack e with
  | some args => callStmts mknodeCall args
  | Option.none => Except.error ()

/-- Run a per-descriptor statement computation over a list of descriptors,
stopping at the first failure. -/
def collectStmts (f : Val → Except Unit (List Stmt)) :
    List Val → Except Unit (List (List Stmt))
  | [] => Except.ok []
  | v :: vs =>
      match f v with
      | Except.error e => Except.error e
      | Except.ok s =>
          match collectStmts f vs with
          | Except.error e => Except.error e
          | Except.ok ss => Except.ok (s :: ss)

/-! ## Dictionary lemmas -/

theorem dictLookup_dictInsert_self (d : List (String × String)) (k v : String) :
    dictLookup (dictInsert d k v) k = some v := by
  induction d with
  | nil => simp [dictInsert, dictLookup]
  | cons kv rest ih =>
      obtain ⟨k', v'⟩ := kv
      by_cases hk : k' = k
      · simp [dictInsert, hk, dictLookup]
      · simp [dictInsert, hk, dictLookup, ih]

theorem dictLookup_dictInsert_ne (d : List (String × String)) (k v k' : String)
    (h : k ≠ k') : dictLookup (dictInsert d k v) k' = dictLookup d k' := by
  induction d with
  | nil => simp [dictInsert, dictLookup, h]
  | cons kv rest ih =>
      obtain ⟨a, b⟩ := kv
      by_cases ha : a = k
      · simp [dictInsert, ha, dictLookup, h]
      · simp [dictInsert, ha, dictLookup, ih]

theorem dictLookup_dictUpdate_notMem (a : List (String × String)) :
    ∀ (d : List (String × String)) (k : String), k ∉ a.map Prod.fst →
      dictLookup (dictUpdate d a) k = dictLookup d k := by
  induction a with
  | nil => intro d k _; rfl
  | cons kv rest ih =>
      intro d k hk
      obtain ⟨k1, v1⟩ := kv
      simp only [List.map_cons, List.mem_cons] at hk
      push_neg at hk
      have h1 : dictUpdate d ((k1, v1) :: rest) = dictUpdate (dictInsert d k1 v1) rest := by
        simp [dictUpdate]
      rw [h1, ih _ k hk.2, dictLookup_dictInsert_ne _ _ _ _ (fun h => hk.1 h.symm)]

theorem dictLookup_dictUpdate (a : List (String × String)) :
    ∀ (d : List (String × String)) (k : String), (a.map Prod.fst).Nodup →
      dictLookup (dictUpdate d a) k =
        (match dictLookup a k with
         | some w => some w
         | Option.none => dictLookup d k) := by
  induction a with
  | nil => intro d k _; rfl
  | cons kv rest ih =>
      intro d k hnd
      obtain ⟨k1, v1⟩ := kv
      simp only [List.map_cons, List.nodup_cons] at hnd
      have h1 : dictUpdate d ((k1, v1) :: rest) = dictUpdate (dictInsert d k1 v1) rest := by
        simp [dictUpdate]
      by_cases hk : k1 = k
      · subst hk
        rw [h1, dictLookup_dictUpdate_notMem rest _ k1 hnd.1,
          dictLookup_dictInsert_self]
        simp [dictLookup]
      · rw [h1, ih _ k hnd.2]
        simp [dictLookup, hk]
        rcases dictLookup rest k with _ | w
        · simp [dictLookup_dictInsert_ne _ _ _ _ hk]
        · simp

/-! ## Factoring the registration loops -/

theorem mkedgeCall_factor (g : Graph) (args : List Val) :
    mkedgeCall g args =
      (callStmts mkedgeCall args).map
        (fun ss => ⟨g.graph_attr, g.body ++ ss⟩) := by
  match args with
  | [] => rfl
  | [t] => rfl
  | [t, h] => cases t <;> cases h <;> rfl
  | [t, h, a] => cases t <;> cases h <;> cases a <;> rfl
  | t :: h :: a :: x :: rest => rfl

theorem mknodeCall_factor (g : Graph) (args : List Val) :
    mknodeCall g args =
      (callStmts mknodeCall args).map
        (fun ss => ⟨g.graph_attr, g.body ++ ss⟩) := by
  match args with
  | [] => rfl
  | [n] => cases n <;> rfl
  | [n, l] => cases n <;> cases l <;> rfl
  | [n, l, a] => cases n <;> cases l <;> cases a <;> rfl
  | n :: l :: a :: x :: rest => rfl

theorem addVertices_cons (g : Graph) (v : Val) (vs : List Val) :
    addVertices mkedgeCall g (v :: vs) =
      match vertexStmts v with
      | Except.error e => Except.error e
      | Except.ok s0 =>
          addVertices mkedgeCall ⟨g.graph_attr, g.body ++ s0⟩ vs := by
  simp only [addVertices]
  rw [mkedgeCall_factor g [v]]
  cases hc : callStmts mkedgeCall [v] with
  | ok s0 => simp [vertexStmts, hc, Except.map]
  | error e =>
      simp only [vertexStmts, hc, Except.map]
      cases hu : unpack v with
      | none => rfl
      | some args =>
          dsimp only
          rw [mkedgeCall_factor g args]
          cases ha : callStmts mkedgeCall args <;> simp [Except.map]

theorem addEdges_cons (g : Graph) (e : Val) (es : List Val) :
    addEdges mknodeCall g (e :: es) =
      match edgeStmts e with
      | Except.error err => Except.error err
      | Except.ok s0 =>
          addEdges mknodeCall ⟨g.graph_attr, g.body ++ s0⟩ es := by
  simp only [addEdges]
  cases hu : unpack e with
  | none => simp [edgeStmts, hu]
  | some args =>
      simp only [edgeStmts, hu]
      rw [mknodeCall_factor g args]
      cases ha : callStmts mknodeCall args <;> simp [Except.map]

theorem addVertices_collect (vs : List Val) :
    ∀ (g gf : Graph), addVertices mkedgeCall g vs = Except.ok gf →
      ∃ ss, collectStmts vertexStmts vs = Except.ok ss ∧
        gf.graph_attr = g.graph_attr ∧ gf.body = g.body ++ ss.flatten := by
  induction vs with
  | nil =>
      intro g gf h
      obtain rfl : g = gf := by injection h
      exact ⟨[], rfl, rfl, by simp⟩
  | cons v vs ih =>
      intro g gf h
      rw [addVertices_cons] at h
      cases hv : vertexStmts v with
      | error e => rw [hv] at h; cases h
      | ok s0 =>
          rw [hv] at h
          obtain ⟨ss, hcol, hga, hb⟩ := ih _ _ h
          refine ⟨s0 :: ss, ?_, ?_, ?_⟩
          · simp [collectStmts, hv, hcol]
          · simpa using hga
          · simpa [List.append_assoc] using hb

theorem addEdges_collect (es : List Val) :
    ∀ (g gf : Graph), addEdges mknodeCall g es = Except.ok gf →
      ∃ ss, collectStmts edgeStmts es = Except.ok ss ∧
        gf.graph_attr = g.graph_attr ∧ gf.body = g.body ++ ss.flatten := by
  induction es with
  | nil =>
      intro g gf h
      obtain rfl : g = gf := by injection h
      exact ⟨[], rfl, rfl, by simp⟩
  | cons e es ih =>
      intro g gf h
      rw [addEdges_cons] at h
      cases he : edgeStmts e with
      | error err => rw [he] at h; cases h
      | ok s0 =>
          rw [he] at h
          obtain ⟨ss, hcol, hga, hb⟩ := ih _ _ h
          refine ⟨s0 :: ss, ?_, ?_, ?_⟩
          · simp [collectStmts, he, hcol]
          · simpa using hga
          · simpa [List.append_assoc] using hb

/-! ## Claim theorems -/

/-- C1.  The claim says that with the default helper arguments each edge
descriptor in `edges` is registered as an edge between its two endpoints.
In fact, because the defaults of the `mkedge`/`mknode` parameters of `graph`
are swapped, the edge descriptor `('T', 'S', {"weight": "22"})` registers a
node named `T` labelled `S` and no edge at all: the built graph equals a
graph whose body is that single node statement, and its edge list is
empty. -/
theorem graph_edge_descriptor_registers_node_not_edge :
    graph (some [Val.tuple [Val.str "T", Val.str "S",
        Val.attrs [("weight", "22")]]]) Option.none Option.none =
      Except.ok ⟨[("rankdir", "LR")],
        [Stmt.node "T" (some "S") [("weight", "22")]]⟩ ∧
    (graph (some [Val.tuple [Val.str "T", Val.str "S",
        Val.attrs [("weight", "22")]]]) Option.none Option.none).map edgeList =
      Except.ok [] :=
  ⟨rfl, rfl⟩

/-- C2.  The claim says every identifier appearing in the edge list is
registered as a node exactly once.  For the edge list
`[('T','S',{}), ('T','U',{})]` the code registers the node name `T` twice
(once per edge descriptor, as tail) and never registers `S` or `U`: in DOT
semantics the built graph has `T` as its only node. -/
theorem graph_nodes_not_registered_once :
    (graph (some [Val.tuple [Val.str "T", Val.str "S", Val.attrs []],
        Val.tuple [Val.str "T", Val.str "U", Val.attrs []]])
        Option.none Option.none).map declaredNodes = Except.ok ["T", "T"] ∧
    (graph (some [Val.tuple [Val.str "T", Val.str "S", Val.attrs []],
        Val.tuple [Val.str "T", Val.str "U", Val.attrs []]])
        Option.none Option.none).map semNodes = Except.ok ["T"] :=
  ⟨rfl, rfl⟩

/-- C3.  The claim says a vertex descriptor given as a bare identifier or as
an (identifier, attributes) pair results in a registered node.  Because the
vertex loop calls the module-level `mkedge` by default, a bare identifier
`'S'` raises (both calling conventions miss the required `head` argument)
and the pair `('S', {"color": "red"})` also raises (the attribute dictionary
becomes the `head` endpoint, which graphviz rejects); neither registers a
node. -/
theorem graph_vertex_descriptor_raises :
    graph Option.none (some [Val.str "S"]) Option.none = Except.error () ∧
    graph Option.none (some [Val.tuple [Val.str "S",
        Val.attrs [("color", "red")]]]) Option.none = Except.error () :=
  ⟨rfl, rfl⟩

/-- C4.  The claim says building from `gw_example_small_fixed()` yields 8
nodes and 12 edges.  In fact the build yields a graph with 0 edge statements
whose DOT-semantic node set has 7 elements (the 12 tails `T,S,U,V,W,X,Z`
deduplicated; `Y` never occurs as a tail), and overriding the layout
direction leaves those counts unchanged while changing the graph-attribute
mapping. -/
theorem gw_example_small_fixed_build_counts :
    (graph (some gw_example_small_fixed) Option.none Option.none).map
        (fun g => ((semNodes g).length, (edgeList g).length)) =
      Except.ok (7, 0) ∧
    (graph (some gw_example_small_fixed) Option.none
        (some [("rankdir", "UD")])).map
        (fun g => ((semNodes g).length, (edgeList g).length)) =
      Except.ok (7, 0) ∧
    (graph (some gw_example_small_fixed) Option.none
        (some [("rankdir", "UD")])).map Graph.graph_attr =
      Except.ok [("rankdir", "UD")] :=
  ⟨rfl, rfl, rfl⟩

/-- C5.  For every attrs mapping passed to `mkgraph` (including `None`),
every binding of `default_graph_attrs` is visible in the built graph with
its default value, unless the caller-supplied mapping binds the same key, in
which case the caller value wins. -/
theorem mkgraph_merges_attrs_over_defaults
    (attrs : Option (List (String × String))) (k v : String)
    (hdef : dictLookup default_graph_attrs k = some v)
    (hnd : ∀ a, attrs = some a → (a.map Prod.fst).Nodup) :
    dictLookup (mkgraph attrs).graph_attr k =
      some ((attrs.bind (fun a => dictLookup a k)).getD v) := by
  cases attrs with
  | none => simpa [mkgraph, Option.bind] using hdef
  | some a =>
      have hnd' := hnd a rfl
      simp only [mkgraph, Option.bind]
      rw [dictLookup_dictUpdate a default_graph_attrs k hnd']
      rcases h : dictLookup a k with _ | w
      · simpa [h] using hdef
      · simp [h]

/-- Witness for C5 at `attrs = {"rankdir": "UD"}`, key `rankdir`: the
default value is `LR` and the merged graph carries the caller value. -/
theorem mkgraph_merges_attrs_over_defaults_witness :
    dictLookup default_graph_attrs "rankdir" = some "LR" ∧
    (∀ a, (some [("rankdir", "UD")] :
        Option (List (String × String))) = some a → (a.map Prod.fst).Nodup) ∧
    dictLookup (mkgraph (some [("rankdir", "UD")])).graph_attr "rankdir" =
      some (((some [("rankdir", "UD")] :
        Option (List (String × String))).bind
          (fun a => dictLookup a "rankdir")).getD "LR") :=
  ⟨rfl, fun a ha => by cases ha; decide,
    mkgraph_merges_attrs_over_defaults (some [("rankdir", "UD")]) "rankdir"
      "LR" rfl (fun a ha => by cases ha; decide)⟩

/-- C6.  `G(edges, vertices, attrs, open)` is exactly the composition of
building via `graph(edges, vertices, attrs)` and rendering via
`render(·, open)`: it issues the same render call on the same built graph,
and adds no behaviour of its own (when building raises, so does `G`). -/
theorem G_is_render_after_graph
    (edges vertices : Option (List Val))
    (attrs : Option (List (String × String))) (openViewer : Bool) :
    G edges vertices attrs openViewer =
      (graph edges vertices attrs).map (fun g => render g openViewer) :=
  rfl

/-- C8 counterexample.  The claim offers `quick_render` as a possible output
base name; the render call issued for a concrete graph uses the base name
`render`, which is not `quick_render`. -/
theorem render_filename_is_not_quick_render :
    (render ⟨default_graph_attrs, []⟩ false).filename = "render" ∧
    (render ⟨default_graph_attrs, []⟩ false).filename ≠ "quick_render" :=
  ⟨rfl, (by decide : ("render" : String) ≠ "quick_render")⟩

/-- C8 (amended).  Every call to `render(graph, open)` issues exactly one
render call on the given graph with fixed base filename `render`, fixed
format `png`, cleanup of intermediate files enabled, and the viewer flag
passed through; the base name `quick_render` is never used. -/
theorem render_fixed_output (g : Graph) (openViewer : Bool) :
    (render g openViewer).filename = "render" ∧
    (render g openViewer).filename ≠ "quick_render" ∧
    (render g openViewer).format = "png" ∧
    (render g openViewer).cleanup = true ∧
    (render g openViewer).view = openViewer ∧
    (render g openViewer).graph = g :=
  ⟨rfl, (by decide : ("render" : String) ≠ "quick_render"), rfl, rfl, rfl, rfl⟩

/-- C9.  The default helper arguments of `graph` are swapped: the edge
parameter defaults to the module-level `mknode` and the vertex parameter
defaults to the module-level `mkedge`.  Consequently, with default
arguments, a three-tuple edge descriptor `(tail, head, attrs)` registers a
node named `tail` labelled `head` carrying `attrs`, and a two-tuple vertex
descriptor registers an edge between its two components. -/
theorem graph_default_helpers_swapped :
    graph = (fun edges vertices attrs =>
      graphWith edges vertices attrs mkgraph mknodeCall mkedgeCall) ∧
    (∀ t h a, graph (some [Val.tuple [Val.str t, Val.str h, Val.attrs a]])
        Option.none Option.none =
      Except.ok ⟨default_graph_attrs, [Stmt.node t (some h) a]⟩) ∧
    (∀ t h, graph Option.none
        (some [Val.tuple [Val.str t, Val.str h]]) Option.none =
      Except.ok ⟨default_graph_attrs, [Stmt.edge t h []]⟩) :=
  ⟨rfl, fun _ _ _ => rfl, fun _ _ => rfl⟩

/-- C7.  Registration in `graph` is sequential on a freshly constructed
graph handle: the body of the built graph is exactly the concatenation of
the statements contributed by the vertex descriptors, in input order,
followed by the statements contributed by the edge descriptors, in input
order (and nothing else: the handle starts with an empty body). -/
theorem graph_registers_vertices_then_edges
    (E V : List Val) (attrs : Option (List (String × String))) (gf : Graph)
    (h : graph (some E) (some V) attrs = Except.ok gf) :
    ∃ vss ess, collectStmts vertexStmts V = Except.ok vss ∧
      collectStmts edgeStmts E = Except.ok ess ∧
      gf.body = vss.flatten ++ ess.flatten := by
  unfold graph graphWith at h
  dsimp only at h
  cases hv : addVertices mkedgeCall (mkgraph attrs) V with
  | error e => rw [hv] at h; cases h
  | ok g1 =>
      rw [hv] at h
      dsimp only at h
      obtain ⟨vss, hvcol, _, hvb⟩ := addVertices_collect V _ _ hv
      obtain ⟨ess, hecol, _, heb⟩ := addEdges_collect E _ _ h
      refine ⟨vss, ess, hvcol, hecol, ?_⟩
      rw [heb, hvb]
      simp [mkgraph]

/-- Witness for C7: one vertex descriptor `('A', 'B')` and one edge
descriptor `('T', 'S', {"weight": "22"})` build successfully, and the body
of the built graph is the vertex-loop contribution (an edge statement, by
the swapped defaults) followed by the edge-loop contribution (a node
statement). -/
theorem graph_registers_vertices_then_edges_witness :
    graph (some [Val.tuple [Val.str "T", Val.str "S",
        Val.attrs [("weight", "22")]]])
      (some [Val.tuple [Val.str "A", Val.str "B"]]) Option.none =
      Except.ok ⟨[("rankdir", "LR")],
        [Stmt.edge "A" "B" [], Stmt.node "T" (some "S") [("weight", "22")]]⟩ ∧
    ∃ vss ess,
      collectStmts vertexStmts [Val.tuple [Val.str "A", Val.str "B"]] =
        Except.ok vss ∧
      collectStmts edgeStmts [Val.tuple [Val.str "T", Val.str "S",
        Val.attrs [("weight", "22")]]] = Except.ok ess ∧
      (⟨[("rankdir", "LR")],
        [Stmt.edge "A" "B" [], Stmt.node "T" (some "S") [("weight", "22")]]⟩ :
          Graph).body = vss.flatten ++ ess.flatten :=
  ⟨rfl, graph_registers_vertices_then_edges _ _ Option.none _ rfl⟩

/-- C10.  `mkgraph` merges the caller attributes into a fresh copy of
`default_graph_attrs` and never mutates the process-wide default dictionary:
in the store-passing translation, the dictionary at the default address is
unchanged by the call, for every caller attrs argument (including `None`). -/
theorem mkgraphStore_preserves_default_graph_attrs
    (s : Store) (defaultAddr : Nat)
    (attrs : Option (List (String × String))) (h : defaultAddr < s.length) :
    ((mkgraphStore s defaultAddr attrs).1).getD defaultAddr [] =
      s.getD defaultAddr [] := by
  cases attrs with
  | none =>
      simp only [mkgraphStore, List.getD, List.get?_eq_getElem?]
      rw [List.getElem?_append_left h]
  | some a =>
      simp only [mkgraphStore, List.getD, List.get?_eq_getElem?]
      rw [List.getElem?_set_ne (by omega : s.length ≠ defaultAddr),
        List.getElem?_append_left h]

/-- Witness for C10: a store holding `default_graph_attrs` at address 0 is
unchanged at address 0 by a call overriding the layout direction. -/
theorem mkgraphStore_preserves_default_graph_attrs_witness :
    0 < ([default_graph_attrs] : Store).length ∧
    ((mkgraphStore [default_graph_attrs] 0
        (some [("rankdir", "UD")])).1).getD 0 [] =
      ([default_graph_attrs] : Store).getD 0 [] :=
  ⟨by decide, mkgraphStore_preserves_default_graph_attrs
    [default_graph_attrs] 0 (some [("rankdir", "UD")]) (by decide)⟩

end Graphwork
